import Mathlib

/-!
# Verification of `scielo_log_validator` against its specification

Shallow embedding of the repository `scieloorg/scielo_log_validator`
(files `scielo_log_validator/validator.py`, `values.py`, `file_utils.py`,
`exceptions.py`) in Lean 4, followed by theorems settling the claims about
the content-sampling validation engine.

Modelling conventions:
* Python strings are Lean `String`s / `List Char`; log files are `List String`
  (one entry per decoded line; byte-decoding with replacement is below the
  granularity of this model).
* Python `float` arithmetic on sample fractions is modelled with exact `ℚ`.
* Python exceptions are modelled with `Except`; exception classes that the
  code never catches are "abort" errors that propagate.
* The regular-expression patterns of `values.py` are transcribed into a small
  regex AST (`RE`) and executed by a backtracking matcher with Python `re`
  semantics (`re.match`: anchored at the start, leftmost-preference
  backtracking, greedy/lazy quantifiers, named capture groups).  The character
  classes `\w`, `\d`, `\s` are modelled at ASCII granularity; all log-line
  grammar characters are ASCII.
-/

namespace LogValidator

/-! ## Character classes (`re` syntax subset used by `values.py`) -/

/-- One atom of a character class: a literal character, a range, or one of the
shorthand classes `\d`, `\w`, `\s` (ASCII granularity). -/
inductive CAtom where
  | ch (c : Char)
  | rng (lo hi : Char)
  | dcls
  | wcls
  | scls
  deriving Repr, DecidableEq

/-- Test of one class atom against a character. -/
def CAtom.test : CAtom → Char → Bool
  | .ch c, x => x == c
  | .rng lo hi, x => lo ≤ x && x ≤ hi
  | .dcls, x => x.isDigit
  | .wcls, x => x.isAlphanum || x == '_'
  | .scls, x => x == ' ' || x == '\t' || x == '\n' || x == '\r' || x == '\x0b' || x == '\x0c'

/-- A character class `[...]` (or `[^...]` when `neg` is set). -/
structure CCls where
  neg : Bool
  atoms : List CAtom
  deriving Repr, DecidableEq

/-- Membership of a character in a character class. -/
def CCls.test (c : CCls) (x : Char) : Bool :=
  let hit := c.atoms.any (fun a => a.test x)
  if c.neg then !hit else hit

/-- `.` : any character except a newline (no DOTALL flag is used). -/
def reDot : CCls := ⟨true, [.ch '\n']⟩

/-- `\s` -/
def reSpace : CCls := ⟨false, [.scls]⟩

/-- `\S` -/
def reNonSpace : CCls := ⟨true, [.scls]⟩

/-- `\d` -/
def reDigit : CCls := ⟨false, [.dcls]⟩

/-! ## Regex AST

Quantifiers over arbitrary subexpressions are not needed: in `values.py`
every `*`, `+` and `{m,n}` quantifier has a single-character body (a literal
class or shorthand class), and the only `?` bodies are a character class and
the literal `s` (in `https?`).  Counted repetitions of composite bodies
(`(?:\.\d{1,3}){3}`) are unfolded at pattern-construction time. -/

inductive RE where
  | eps
  | lit (cs : List Char)
  | one (c : CCls)
  | star (lazy : Bool) (c : CCls)
  | plus (lazy : Bool) (c : CCls)
  | rep (c : CCls) (lo hi : Nat)
  | opt (r : RE)
  | cat (a b : RE)
  | alt (a b : RE)
  | grp (name : String) (r : RE)
  | dollar
  deriving Repr, DecidableEq

/-- Concatenation of a list of regexes. -/
def reCat (rs : List RE) : RE := rs.foldr RE.cat RE.eps

/-- Named captures of a match: group name ↦ captured substring.
Only groups whose subexpression participated in the match are present
(every named group in the `values.py` patterns is in mandatory position,
so on a successful match all of a pattern's groups are present). -/
abbrev Caps := List (String × String)

/-- `groupdict().get(name, default)`. -/
def capGetD (g : Caps) (name : String) (dflt : String) : String :=
  match g.lookup name with
  | some v => v
  | none => dflt

/-- Length of the maximal prefix of `xs` made of characters of class `c`. -/
def runLen (c : CCls) : List Char → Nat
  | [] => 0
  | x :: xs => if c.test x then runLen c xs + 1 else 0

/-- Continuation type of the backtracking matcher: remaining input and
captures so far. -/
abbrev MK := List Char → Caps → Option Caps

/-- Try continuation `k` after consuming `i` characters, for `i = n, n-1, …, lo`
(greedy order). -/
def tryDesc (xs : List Char) (g : Caps) (k : MK) (lo : Nat) : Nat → Option Caps
  | 0 => if lo == 0 then k xs g else none
  | n + 1 =>
    if n + 1 < lo then none
    else
      match k (xs.drop (n + 1)) g with
      | some r => some r
      | none => tryDesc xs g k lo n

/-- Try continuation `k` after consuming `i` characters, for `i = lo, …, n`
(lazy order).  `fuel` bounds the recursion by `n - i + 1`. -/
def tryAsc (xs : List Char) (g : Caps) (k : MK) (n : Nat) : Nat → Nat → Option Caps
  | _, 0 => none
  | i, fuel + 1 =>
    match k (xs.drop i) g with
    | some r => some r
    | none => if i < n then tryAsc xs g k n (i + 1) fuel else none

/-- Backtracking matcher with Python `re` semantics.  `matchRE r xs g k`
matches `r` against a prefix of `xs`, extending captures `g`, and calls the
continuation `k` on the rest; alternatives are tried in Python's preference
order (leftmost alternative first, greedy quantifiers longest-first, lazy
quantifiers shortest-first). -/
def matchRE : RE → List Char → Caps → MK → Option Caps
  | .eps, xs, g, k => k xs g
  | .lit cs, xs, g, k =>
    if cs.isPrefixOf xs then k (xs.drop cs.length) g else none
  | .one _, [], _, _ => none
  | .one c, x :: xs, g, k => if c.test x then k xs g else none
  | .star lazy c, xs, g, k =>
    let n := runLen c xs
    if lazy then tryAsc xs g k n 0 (n + 1) else tryDesc xs g k 0 n
  | .plus _ _, [], _, _ => none
  | .plus lazy c, x :: xs, g, k =>
    if c.test x then
      let n := runLen c xs
      if lazy then tryAsc xs g k n 0 (n + 1) else tryDesc xs g k 0 n
    else none
  | .rep c lo hi, xs, g, k =>
    let n := min hi (runLen c xs)
    tryDesc xs g k lo n
  | .opt r, xs, g, k =>
    (match matchRE r xs g k with
     | some r => some r
     | none => k xs g)
  | .cat a b, xs, g, k => matchRE a xs g (fun ys g2 => matchRE b ys g2 k)
  | .alt a b, xs, g, k =>
    (match matchRE a xs g k with
     | some r => some r
     | none => matchRE b xs g k)
  | .grp name r, xs, g, k =>
    matchRE r xs g (fun ys g2 => k ys ((name, String.mk (xs.take (xs.length - ys.length))) :: g2))
  | .dollar, xs, g, k => if xs.isEmpty then k xs g else none

/-- `re.match(pattern, s)`: anchored at the start of `s`, the rest of the
string need not be consumed; returns the capture dictionary on success. -/
def reMatch (p : RE) (s : String) : Option Caps :=
  matchRE p s.data [] (fun _ g => some g)

/-- Literal regex from a string. -/
def reLit (s : String) : RE := .lit s.data

/-- Split a character list at every occurrence of `c`, keeping empty pieces
(the semantics of Python's `str.split(c)` with an explicit separator). -/
def splitCharsOn (c : Char) : List Char → List (List Char)
  | [] => [[]]
  | x :: xs =>
    if x == c then [] :: splitCharsOn c xs
    else
      match splitCharsOn c xs with
      | h :: t => (x :: h) :: t
      | [] => [[x]]

/-- Python `s.split(c)` for a single-character separator. -/
def splitOnChar (c : Char) (s : String) : List String :=
  (splitCharsOn c s.data).map String.mk

/-- Numeric value of a list of decimal digits. -/
def digitsVal (cs : List Char) : Nat :=
  cs.foldl (fun a c => a * 10 + (c.toNat - '0'.toNat)) 0

/-! ## The patterns of `values.py`

Each definition transcribes the regex string of `values.py` construct by
construct, preserving the source's composition of patterns from
`PATTERN_COMMON_LOG_FORMAT`. -/

/-- `[\w*.:-]` -/
def clsIp : CCls := ⟨false, [.wcls, .ch '*', .ch '.', .ch ':', .ch '-']⟩

/-- `[\w*.:,\s-]` -/
def clsIpList : CCls := ⟨false, [.wcls, .ch '*', .ch '.', .ch ':', .ch ',', .scls, .ch '-']⟩

/-- `[^\-\+\s]` -/
def clsDateEnd : CCls := ⟨true, [.ch '-', .ch '+', .scls]⟩

/-- `[+-]` -/
def clsSign : CCls := ⟨false, [.ch '+', .ch '-']⟩

/-- `[^|]` -/
def clsNotPipe : CCls := ⟨true, [.ch '|']⟩

/-- `[A-Z]` -/
def clsUpper : CCls := ⟨false, [.rng 'A' 'Z']⟩

/-- `[a-f0-9]` -/
def clsHexLower : CCls := ⟨false, [.rng 'a' 'f', .rng '0' '9']⟩

/-- The `\[(?P<date>.*[^\-\+\s])\s*(?P<timezone>[+-]?\d{4})\]\s+"(?P<method>\S+)\s+(?P<path>.*?)\s+\S+"\s+(?P<status>\d+)\s+(?P<length>\S+)` tail shared by both common-log patterns. -/
def commonTail : List RE :=
  [ reLit "[",
    .grp "date" (.cat (.star false reDot) (.one clsDateEnd)),
    .star false reSpace,
    .grp "timezone" (.cat (.opt (.one clsSign)) (.rep reDigit 4 4)),
    reLit "]",
    .plus false reSpace,
    reLit "\"",
    .grp "method" (.plus false reNonSpace),
    .plus false reSpace,
    .grp "path" (.star true reDot),
    .plus false reSpace,
    .plus false reNonSpace,
    reLit "\"",
    .plus false reSpace,
    .grp "status" (.plus false reDigit),
    .plus false reSpace,
    .grp "length" (.plus false reNonSpace) ]

/-- `PATTERN_COMMON_LOG_FORMAT`:
`(?P<ip>[\w*.:-]+)\s+\S+\s+(?P<userid>\S+)\s+\[ … ` (tail above). -/
def PATTERN_COMMON_LOG_FORMAT : RE :=
  reCat ([ .grp "ip" (.plus false clsIp),
           .plus false reSpace,
           .plus false reNonSpace,
           .plus false reSpace,
           .grp "userid" (.plus false reNonSpace),
           .plus false reSpace ] ++ commonTail)

/-- `PATTERN_COMMON_LOG_FORMAT_WITH_IP_LIST`:
`(?P<ip>[\w*.:-]+)\s(?P<ip_list>[\w*.:,\s-]+)\s+(?P<userid>\S+)\s+\[ … `. -/
def PATTERN_COMMON_LOG_FORMAT_WITH_IP_LIST : RE :=
  reCat ([ .grp "ip" (.plus false clsIp),
           .one reSpace,
           .grp "ip_list" (.plus false clsIpList),
           .plus false reSpace,
           .grp "userid" (.plus false reNonSpace),
           .plus false reSpace ] ++ commonTail)

/-- `\s+"(?P<referrer>.*?)"\s+"(?P<user_agent>.*?)"` -/
def ncsaSuffix : RE :=
  reCat [ .plus false reSpace, reLit "\"",
          .grp "referrer" (.star true reDot), reLit "\"",
          .plus false reSpace, reLit "\"",
          .grp "user_agent" (.star true reDot), reLit "\"" ]

/-- `PATTERN_NCSA_EXTENDED_LOG_FORMAT = PATTERN_COMMON_LOG_FORMAT + suffix`. -/
def PATTERN_NCSA_EXTENDED_LOG_FORMAT : RE :=
  .cat PATTERN_COMMON_LOG_FORMAT ncsaSuffix

/-- `PATTERN_NCSA_EXTENDED_LOG_FORMAT_WITH_IP_LIST`. -/
def PATTERN_NCSA_EXTENDED_LOG_FORMAT_WITH_IP_LIST : RE :=
  .cat PATTERN_COMMON_LOG_FORMAT_WITH_IP_LIST ncsaSuffix

/-- `(?P<domain>.*?)\s` -/
def domainPrefix : RE :=
  .cat (.grp "domain" (.star true reDot)) (.one reSpace)

/-- `PATTERN_NCSA_EXTENDED_LOG_FORMAT_DOMAIN`. -/
def PATTERN_NCSA_EXTENDED_LOG_FORMAT_DOMAIN : RE :=
  .cat domainPrefix PATTERN_NCSA_EXTENDED_LOG_FORMAT

/-- `PATTERN_NCSA_EXTENDED_LOG_FORMAT_DOMAIN_WITH_IP_LIST`. -/
def PATTERN_NCSA_EXTENDED_LOG_FORMAT_DOMAIN_WITH_IP_LIST : RE :=
  .cat domainPrefix PATTERN_NCSA_EXTENDED_LOG_FORMAT_WITH_IP_LIST

/-- `PATTERN_BUNNY` (the `^` anchor is what `re.match` provides anyway):
`^(?P<cache>HIT|MISS)\|(?P<status>\d{3})\|(?P<timestamp>\d{10})\|(?P<bytes>\d+)\|(?P<zone>\d+)\|(?P<ip>\d{1,3}(?:\.\d{1,3}){3})\|(?P<others>[^|]*\|https?://[^|]+\|[A-Z]{2}\|[^|]+\|[a-f0-9]{32}\|[A-Z]{2})$`,
with the counted repetition `(?:\.\d{1,3}){3}` unfolded. -/
def PATTERN_BUNNY : RE :=
  reCat
    [ .grp "cache" (.alt (reLit "HIT") (reLit "MISS")), reLit "|",
      .grp "status" (.rep reDigit 3 3), reLit "|",
      .grp "timestamp" (.rep reDigit 10 10), reLit "|",
      .grp "bytes" (.plus false reDigit), reLit "|",
      .grp "zone" (.plus false reDigit), reLit "|",
      .grp "ip" (reCat [ .rep reDigit 1 3, reLit ".", .rep reDigit 1 3,
                         reLit ".", .rep reDigit 1 3, reLit ".", .rep reDigit 1 3 ]),
      reLit "|",
      .grp "others" (reCat
        [ .star false clsNotPipe, reLit "|",
          reLit "http", .opt (reLit "s"), reLit "://",
          .plus false clsNotPipe, reLit "|",
          .rep clsUpper 2 2, reLit "|",
          .plus false clsNotPipe, reLit "|",
          .rep clsHexLower 32 32, reLit "|",
          .rep clsUpper 2 2 ]),
      .dollar ]

/-! ## The address classifier (`get_ip_type` of `validator.py`)

`ip_address` from the Python standard library (CPython 3.11) is embedded:
try `IPv4Address`, then `IPv6Address`; classification uses the constant
network tables of `ipaddress._IPv4Constants` / `_IPv6Constants`. -/

/-- `_parse_octet`: nonempty ASCII decimal, at most 3 characters, no leading
zeros, value at most 255. -/
def parseOctet (s : String) : Option Nat :=
  if s = "" then none
  else if !s.data.all Char.isDigit then none
  else if s.length > 3 then none
  else if s ≠ "0" && s.data.headD '0' == '0' then none
  else
    let v := digitsVal s.data
    if v > 255 then none else some v

/-- `IPv4Address._ip_int_from_string`: exactly four octets. -/
def parseIPv4 (s : String) : Option Nat :=
  if s = "" then none
  else
    match splitOnChar '.' s with
    | [a, b, c, d] =>
      match parseOctet a, parseOctet b, parseOctet c, parseOctet d with
      | some a, some b, some c, some d => some (((a * 256 + b) * 256 + c) * 256 + d)
      | _, _, _, _ => none
    | _ => none

/-- `_parse_hextet`: hex digits only, at most 4 characters, nonempty
(`int('', 16)` raises). -/
def parseHextet (s : String) : Option Nat :=
  if !s.data.all (fun c => c.isDigit || ('a' ≤ c && c ≤ 'f') || ('A' ≤ c && c ≤ 'F')) then none
  else if s.length > 4 then none
  else if s = "" then none
  else
    some (s.data.foldl (fun acc c =>
      acc * 16 + (if c.isDigit then c.toNat - '0'.toNat
                  else if 'a' ≤ c && c ≤ 'f' then c.toNat - 'a'.toNat + 10
                  else c.toNat - 'A'.toNat + 10)) 0)

/-- Positions `i` with `1 ≤ i ≤ n-2` and `parts[i] = ""` (the candidate
positions of `::` in `_ip_int_from_string`). -/
def emptyMidIdx (parts : List String) : List Nat :=
  (List.range parts.length).filter
    (fun i => 1 ≤ i && i + 1 < parts.length && parts.getD i "x" == "")

/-- Parse the list of hextet strings, with `skipped` zero hextets inserted
after the first `hi` parts (`_ip_int_from_string`, final loop). -/
def foldHextets (hi lo skipped : Nat) (parts : List String) : Option Nat :=
  let hiParts := parts.take hi
  let loParts := parts.drop (parts.length - lo)
  match hiParts.mapM parseHextet, loParts.mapM parseHextet with
  | some hs, some ls =>
    let top := hs.foldl (fun acc h => acc * 65536 + h) 0
    let bot := ls.foldl (fun acc h => acc * 65536 + h) 0
    some ((top * 65536 ^ (skipped + lo)) + bot)
  | _, _ => none

/-- `IPv6Address._ip_int_from_string` (without the scope id, handled by the
caller): the `::` bookkeeping of CPython 3.11, with an IPv4-style last part
converted to two hextets. -/
def parseIPv6NoScope (s : String) : Option Nat :=
  if s = "" then none
  else
    let parts0 := splitOnChar ':' s
    if parts0.length < 3 then none
    else
      let parts :=
        if (parts0.getLast?.getD "").data.contains '.' then
          match parseIPv4 (parts0.getLast?.getD "") with
          | some v4 => parts0.dropLast ++
              [String.mk (Nat.toDigits 16 (v4 / 65536)), String.mk (Nat.toDigits 16 (v4 % 65536))]
          | none => []
        else parts0
      if parts = [] then none
      else if parts.length > 9 then none
      else
        match emptyMidIdx parts with
        | [] =>
          if parts.length ≠ 8 then none
          else if parts.headD "" = "" || parts.getLast?.getD "" = "" then none
          else foldHextets parts.length 0 0 parts
        | [skip] =>
          let hi0 := skip
          let lo0 := parts.length - skip - 1
          let hi := if parts.headD "" = "" then hi0 - 1 else hi0
          let lo := if parts.getLast?.getD "" = "" then lo0 - 1 else lo0
          if parts.headD "" = "" && hi ≠ 0 then none
          else if parts.getLast?.getD "" = "" && lo ≠ 0 then none
          else if 8 < hi + lo + 1 then none
          else foldHextets hi lo (8 - (hi + lo)) parts
        | _ => none

/-- `IPv6Address.__init__` scope-id splitting (`addr%scope`, scope nonempty,
no further `%`). -/
def parseIPv6 (s : String) : Option Nat :=
  match splitOnChar '%' s with
  | [a] => parseIPv6NoScope a
  | [a, z] => if z ≠ "" then parseIPv6NoScope a else none
  | _ => none

/-- Membership of a 32-bit value in an IPv4 network `base/plen`. -/
def inNet4 (v base plen : Nat) : Bool :=
  v / 2 ^ (32 - plen) == base / 2 ^ (32 - plen)

/-- Numeric IPv4 address from dotted components (for the network tables). -/
def v4 (a b c d : Nat) : Nat := ((a * 256 + b) * 256 + c) * 256 + d

/-- `_IPv4Constants._private_networks` (CPython 3.11). -/
def ipv4PrivateNetworks : List (Nat × Nat) :=
  [ (v4 0 0 0 0, 8), (v4 10 0 0 0, 8), (v4 127 0 0 0, 8), (v4 169 254 0 0, 16),
    (v4 172 16 0 0, 12), (v4 192 0 0 0, 29), (v4 192 0 0 170, 31), (v4 192 0 2 0, 24),
    (v4 192 168 0 0, 16), (v4 198 18 0 0, 15), (v4 198 51 100 0, 24),
    (v4 203 0 113 0, 24), (v4 240 0 0 0, 4), (v4 255 255 255 255, 32) ]

/-- `IPv4Address.is_private`. -/
def v4IsPrivate (v : Nat) : Bool :=
  ipv4PrivateNetworks.any (fun n => inNet4 v n.1 n.2)

/-- `IPv4Address.is_global`: not in `100.64.0.0/10` and not private. -/
def v4IsGlobal (v : Nat) : Bool :=
  !inNet4 v (v4 100 64 0 0) 10 && !v4IsPrivate v

/-- `IPv4Address.is_loopback` (`127.0.0.0/8`). -/
def v4IsLoopback (v : Nat) : Bool := inNet4 v (v4 127 0 0 0) 8

/-- `IPv4Address.is_link_local` (`169.254.0.0/16`). -/
def v4IsLinkLocal (v : Nat) : Bool := inNet4 v (v4 169 254 0 0) 16

/-- Membership of a 128-bit value in an IPv6 network `base/plen`. -/
def inNet6 (v base plen : Nat) : Bool :=
  v / 2 ^ (128 - plen) == base / 2 ^ (128 - plen)

/-- `_IPv6Constants._private_networks` (CPython 3.11). -/
def ipv6PrivateNetworks : List (Nat × Nat) :=
  [ (1, 128), (0, 128), (0xffff * 65536 ^ 2, 96), (0x100 * 65536 ^ 7, 64),
    (0x2001 * 65536 ^ 7, 23), (0x2001 * 65536 ^ 7 + 0x2 * 65536 ^ 6, 48),
    (0x2001 * 65536 ^ 7 + 0xdb8 * 65536 ^ 6, 32),
    (0x2001 * 65536 ^ 7 + 0x10 * 65536 ^ 6, 28),
    (0xfc00 * 65536 ^ 7, 7), (0xfe80 * 65536 ^ 7, 10) ]

/-- `IPv6Address.ipv4_mapped`: the low 32 bits when in `::ffff:0:0/96`. -/
def v6IPv4Mapped (v : Nat) : Option Nat :=
  if v / 2 ^ 32 == 0xffff then some (v % 2 ^ 32) else none

/-- `IPv6Address.is_private` (delegates to the mapped IPv4 address when there
is one). -/
def v6IsPrivate (v : Nat) : Bool :=
  match v6IPv4Mapped v with
  | some m => v4IsPrivate m
  | none => ipv6PrivateNetworks.any (fun n => inNet6 v n.1 n.2)

/-- `IPv6Address.is_global`. -/
def v6IsGlobal (v : Nat) : Bool := !v6IsPrivate v

/-- `IPv6Address.is_loopback` (`::1`). -/
def v6IsLoopback (v : Nat) : Bool := v == 1

/-- `IPv6Address.is_link_local` (`fe80::/10`). -/
def v6IsLinkLocal (v : Nat) : Bool := inNet6 v (0xfe80 * 65536 ^ 7) 10

/-- Address classes returned by `get_ip_type`: the source's strings
`'local'`, `'remote'`, `'unknown'`. -/
inductive IpType where
  | loc
  | rem
  | unk
  deriving Repr, DecidableEq

/-- `validator.get_ip_type`: parse with `ip_address` (IPv4 first, IPv6
second, a `ValueError` gives `'unknown'`), then classify: global ⇒ remote;
private/loopback/link-local ⇒ local; otherwise unknown. -/
def get_ip_type (ip : String) : IpType :=
  match parseIPv4 ip with
  | some v =>
    if v4IsGlobal v then .rem
    else if v4IsPrivate v || v4IsLoopback v || v4IsLinkLocal v then .loc
    else .unk
  | none =>
    match parseIPv6 ip with
    | some v =>
      if v6IsGlobal v then .rem
      else if v6IsPrivate v || v6IsLoopback v || v6IsLinkLocal v then .loc
      else .unk
    | none => .unk

/-! ## Calendar arithmetic

Proleptic Gregorian calendar conversions (Howard Hinnant's `civil_from_days` /
`days_from_civil` algorithms, with floor division), used to embed
`datetime.fromtimestamp`, `datetime` comparison and `timedelta(days=n)`. -/

/-- Day count since 1970-01-01 → `(year, month, day)`. -/
def civilFromDays (z : Int) : Int × Nat × Nat :=
  let z' := z + 719468
  let era := z'.fdiv 146097
  let doe := (z' - era * 146097).toNat
  let yoe := (doe - doe / 1460 + doe / 36524 - doe / 146096) / 365
  let doy := doe - (365 * yoe + yoe / 4 - yoe / 100)
  let mp := (5 * doy + 2) / 153
  let d := doy - (153 * mp + 2) / 5 + 1
  let m := if mp < 10 then mp + 3 else mp - 9
  (era * 400 + yoe + (if m ≤ 2 then 1 else 0), m, d)

/-- `(year, month, day)` → day count since 1970-01-01. -/
def daysFromCivil (y : Int) (m d : Nat) : Int :=
  let y' := y - (if m ≤ 2 then 1 else 0)
  let era := y'.fdiv 400
  let yoe := (y' - era * 400).toNat
  let mp := if 2 < m then m - 3 else m + 9
  let doy := (153 * mp + 2) / 5 + d - 1
  let doe := yoe * 365 + yoe / 4 - yoe / 100 + doy
  era * 146097 + (doe : Int) - 719468

/-- Number of days in a month (Gregorian). -/
def daysInMonth (y m : Nat) : Nat :=
  if m = 2 then
    if y % 4 = 0 && (y % 100 ≠ 0 || y % 400 = 0) then 29 else 28
  else if m = 4 || m = 6 || m = 9 || m = 11 then 30
  else 31

/-- Validity of `datetime(year, month, day)` (CPython: `MINYEAR = 1`,
`MAXYEAR = 9999`; a bad date raises `ValueError`). -/
def isValidYMD (y m d : Nat) : Bool :=
  1 ≤ y && y ≤ 9999 && 1 ≤ m && m ≤ 12 && 1 ≤ d && d ≤ daysInMonth y m

/-! ## The timestamp normalizer -/

/-- A `(year, month, day, hour)` aggregation key. -/
abbrev DKey := Nat × Nat × Nat × Nat

/-- Digit/underscore shape accepted by Python's `int(...)` after sign
removal: nonempty digits with single underscores strictly between digits. -/
def intDigitsOk : List Char → Bool
  | [] => false
  | [c] => c.isDigit
  | c :: '_' :: rest => c.isDigit && intDigitsOk rest
  | c :: rest => c.isDigit && intDigitsOk rest

/-- Python `int(s)` for a string: optional surrounding whitespace, optional
sign, decimal digits with optional single underscores between digits;
anything else raises `ValueError`. -/
def pyParseInt (s : String) : Option Int :=
  let t := (s.data.dropWhile (fun c => reSpace.test c)).reverse.dropWhile (fun c => reSpace.test c) |>.reverse
  let (sgn, ds) : Int × List Char :=
    match t with
    | '-' :: rest => (-1, rest)
    | '+' :: rest => (1, rest)
    | _ => (1, t)
  if intDigitsOk ds then
    some (sgn * (ds.filter Char.isDigit |>.foldl (fun a c => a * 10 + (c.toNat - '0'.toNat)) 0 : Nat))
  else none

/-- Errors of `get_year_month_day_hour_from_timestamp`:
`InvalidTimestampContentError` for a non-numeric string, and the
(uncaught) `OverflowError`/`OSError` of `datetime.fromtimestamp` for an
out-of-range value. -/
inductive TsErr where
  | invalidContent
  | outOfRange
  deriving Repr, DecidableEq

/-- The argument of `get_year_month_day_hour_from_timestamp` (a string or an
integer in Python). -/
inductive TsInput where
  | str (s : String)
  | int (n : Int)

/-- UTC offset (in seconds) of the local time zone of the tested environment
(UTC−03:00, the zone in which the repository's test suite expectations hold;
`datetime.fromtimestamp` converts to local time). -/
def LOCAL_UTC_OFFSET_SECONDS : Int := -10800

/-- `datetime.fromtimestamp(n)` reduced to `(year, month, day, hour)`. -/
def fromtimestampYMDH (n : Int) : Except TsErr DKey :=
  let loc := n + LOCAL_UTC_OFFSET_SECONDS
  let days := loc.fdiv 86400
  let secs := (loc - days * 86400).toNat
  let (y, m, d) := civilFromDays days
  if y < 1 || 9999 < y then .error .outOfRange
  else .ok (y.toNat, m, d, secs / 3600)

/-- `validator.get_year_month_day_hour_from_timestamp`: a string argument is
parsed with `int(...)` (failure ⇒ `InvalidTimestampContentError`), then
`datetime.fromtimestamp` decomposes the value in local time. -/
def get_year_month_day_hour_from_timestamp (t : TsInput) : Except TsErr DKey :=
  match t with
  | .str s =>
    match pyParseInt s with
    | none => .error .invalidContent
    | some n => fromtimestampYMDH n
  | .int n => fromtimestampYMDH n

/-- Lowercased month abbreviations, as matched (case-insensitively) by
`strptime`'s `%b` in the C locale. -/
def monthAbbrevs : List String :=
  ["jan", "feb", "mar", "apr", "may", "jun", "jul", "aug", "sep", "oct", "nov", "dec"]

/-- Take one or two leading digits (the `%d`/`%H`/`%M`/`%S` fields of
`strptime` match greedily up to two digits). -/
def take2Digits (cs : List Char) : Option (Nat × List Char) :=
  match cs with
  | a :: b :: rest =>
    if a.isDigit && b.isDigit then some ((a.toNat - 48) * 10 + (b.toNat - 48), rest)
    else if a.isDigit then some (a.toNat - 48, b :: rest)
    else none
  | [a] => if a.isDigit then some (a.toNat - 48, []) else none
  | [] => none

/-- Take exactly four digits (`%Y`). -/
def take4Digits (cs : List Char) : Option (Nat × List Char) :=
  match cs with
  | a :: b :: c :: d :: rest =>
    if a.isDigit && b.isDigit && c.isDigit && d.isDigit then
      some ((((a.toNat - 48) * 10 + (b.toNat - 48)) * 10 + (c.toNat - 48)) * 10 + (d.toNat - 48), rest)
    else none
  | _ => none

/-- Expect a literal character. -/
def expectChar (c : Char) (cs : List Char) : Option (List Char) :=
  match cs with
  | x :: rest => if x == c then some rest else none
  | [] => none

/-- Take a month abbreviation (`%b`, case-insensitive), returning its
1-based number. -/
def takeMonthAbbrev (cs : List Char) : Option (Nat × List Char) :=
  match cs with
  | a :: b :: c :: rest =>
    let w := String.mk [a.toLower, b.toLower, c.toLower]
    match (monthAbbrevs.indexOf? w) with
    | some i => some (i + 1, rest)
    | none => none
  | _ => none

/-- `datetime.strptime(s, '%d/%b/%Y:%H:%M:%S')`, reduced to
`(year, month, day, hour)`: the whole string must be consumed, and the
resulting datetime must be constructible (`ValueError` otherwise). -/
def strptimeDdMonYHMS (s : String) : Option DKey :=
  match take2Digits s.data with
  | none => none
  | some (d, r1) =>
    match expectChar '/' r1 with
    | none => none
    | some r2 =>
      match takeMonthAbbrev r2 with
      | none => none
      | some (m, r3) =>
        match expectChar '/' r3 with
        | none => none
        | some r4 =>
          match take4Digits r4 with
          | none => none
          | some (y, r5) =>
            match expectChar ':' r5 with
            | none => none
            | some r6 =>
              match take2Digits r6 with
              | none => none
              | some (h, r7) =>
                match expectChar ':' r7 with
                | none => none
                | some r8 =>
                  match take2Digits r8 with
                  | none => none
                  | some (mi, r9) =>
                    match expectChar ':' r9 with
                    | none => none
                    | some r10 =>
                      match take2Digits r10 with
                      | none => none
                      | some (sec, r11) =>
                        if r11 = [] && isValidYMD y m d && h ≤ 23 && mi ≤ 59 && sec ≤ 59 then
                          some (y, m, d, h)
                        else none

/-- `validator.get_year_month_day_hour_from_date_str`: discard everything
from the first space on (`log_date.split(' ')[0]`), then parse strictly
with `strptime` (`ValueError` on failure, modelled as `Except Unit`). -/
def get_year_month_day_hour_from_date_str (log_date : String) : Except Unit DKey :=
  let first := (splitOnChar ' ' log_date).headD ""
  match strptimeDdMonYHMS first with
  | some k => .ok k
  | none => .error ()

/-! ## The content analyzer (`analyze_log_content`) -/

/-- Python `str.strip()` (ASCII whitespace granularity). -/
def pyStrip (s : String) : String :=
  String.mk (((s.data.dropWhile (fun c => reSpace.test c)).reverse.dropWhile
    (fun c => reSpace.test c)).reverse)

/-- The `patterns` list of `analyze_log_content` (lines 230–236 of
`validator.py`), in source order. -/
def patterns : List RE :=
  [ PATTERN_NCSA_EXTENDED_LOG_FORMAT,
    PATTERN_NCSA_EXTENDED_LOG_FORMAT_DOMAIN,
    PATTERN_NCSA_EXTENDED_LOG_FORMAT_WITH_IP_LIST,
    PATTERN_NCSA_EXTENDED_LOG_FORMAT_DOMAIN_WITH_IP_LIST,
    PATTERN_BUNNY ]

/-- The `ip_list` fallback loop: classify each comma-separated token in order,
stopping at the first non-unknown class; all unknown ⇒ unknown. -/
def firstNonUnknown : List IpType → IpType
  | [] => .unk
  | t :: ts => if t ≠ .unk then t else firstNonUnknown ts

/-- Address classification of one successful pattern match: classify
`content.get('ip')`; if unknown, walk `content.get('ip_list', '').split(',')`
(each token stripped), taking the first non-unknown class. -/
def ipTypeOfMatch (content : Caps) : IpType :=
  let t := get_ip_type (capGetD content "ip" "")
  if t ≠ .unk then t
  else firstNonUnknown
    ((splitOnChar ',' (capGetD content "ip_list" "")).map (fun i => get_ip_type (pyStrip i)))

/-- The pattern loop of `analyze_log_content`: for each pattern in order,
`match = re.match(pattern, decoded_line)` (overwriting the previous value);
on a match whose classification is not unknown, `break`.  Returns the final
values of the `match` and `ip_type` variables.  Note that a match with an
unknown classification does **not** stop the loop, so a later non-matching
pattern overwrites `match` with `None`. -/
def scanPatterns (decoded_line : String) : List RE → Option Caps × IpType
  | [] => (none, .unk)
  | p :: rest =>
    match reMatch p decoded_line with
    | none => scanPatterns decoded_line rest
    | some content =>
      let t := ipTypeOfMatch content
      if t = .unk then
        if rest.isEmpty then (some content, .unk)
        else scanPatterns decoded_line rest
      else (some content, t)

/-- The `ips` counter dictionary `{'local': …, 'remote': …, 'unknown': …}`. -/
structure IpTally where
  loc : Nat
  rem : Nat
  unk : Nat
  deriving Repr, DecidableEq

/-- `ips[ip_type] += 1`. -/
def IpTally.inc (t : IpTally) : IpType → IpTally
  | .loc => { t with loc := t.loc + 1 }
  | .rem => { t with rem := t.rem + 1 }
  | .unk => { t with unk := t.unk + 1 }

/-- `datetimes[k] += 1` (with insertion-ordered keys, as for a Python dict:
a new key is appended, an existing key keeps its position). -/
def bumpAssoc : List (DKey × Nat) → DKey → List (DKey × Nat)
  | [], k => [(k, 1)]
  | (k', v) :: rest, k =>
    if k' = k then (k', v + 1) :: rest else (k', v) :: bumpAssoc rest k

/-- Loop state of `analyze_log_content`.  `lastKey` models the Python local
variables `year, month, day, hour`, which persist across loop iterations:
they hold the last successfully parsed key (`none` before the first one). -/
structure AState where
  ips : IpTally
  datetimes : List (DKey × Nat)
  invalid_lines : Nat
  lastKey : Option DKey
  deriving Repr, DecidableEq

/-- Initial analyzer state. -/
def initAState : AState := ⟨⟨0, 0, 0⟩, [], 0, none⟩

/-- Python errors of `analyze_log_content` that no enclosing handler catches:
`range()` with step 0 (a `ValueError`, when `0 < sample_lines` and
`total_lines < sample_lines`), and the `NameError` read of unbound
`year`/`month`/`day`/`hour` (a matched line with empty `date` and
`timestamp` captures before any line parsed — unreachable through the
patterns of `values.py`, whose date/timestamp groups capture at least one
character, but part of the code's semantics). -/
inductive PyAbort where
  | rangeStepZero
  | nameErrorYMDH
  deriving Repr, DecidableEq

/-- Processing of one sampled line (the body of
`if line_counter in eval_lines:`). -/
def processEvalLine (st : AState) (decoded_line : String) : Except PyAbort AState :=
  let scanned := scanPatterns decoded_line patterns
  let st1 := { st with ips := st.ips.inc scanned.2 }
  match scanned.1 with
  | none => .ok { st1 with invalid_lines := st1.invalid_lines + 1 }
  | some content =>
    let matched_datetime := capGetD content "date" ""
    let matched_timestamp := capGetD content "timestamp" ""
    if matched_datetime ≠ "" then
      match get_year_month_day_hour_from_date_str matched_datetime with
      | .ok k => .ok { st1 with datetimes := bumpAssoc st1.datetimes k, lastKey := some k }
      | .error _ => .ok { st1 with invalid_lines := st1.invalid_lines + 1 }
    else if matched_timestamp ≠ "" then
      match get_year_month_day_hour_from_timestamp (.str matched_timestamp) with
      | .ok k => .ok { st1 with datetimes := bumpAssoc st1.datetimes k, lastKey := some k }
      | .error _ => .ok { st1 with invalid_lines := st1.invalid_lines + 1 }
    else
      match st1.lastKey with
      | some k => .ok { st1 with datetimes := bumpAssoc st1.datetimes k }
      | none => .error .nameErrorYMDH

/-- Membership in `set(range(0, total_lines + 1, stride))` for `stride ≥ 1`. -/
def evalMem (stride total i : Nat) : Bool :=
  i % stride == 0 && i ≤ total

/-- The line loop of `analyze_log_content`: a 1-based counter; sampled lines
(counter in the eval set) are processed, others only advance the counter. -/
def analyzeLines (stride total : Nat) : AState → Nat → List String → Except PyAbort AState
  | st, _, [] => .ok st
  | st, counter, l :: ls =>
    let c := counter + 1
    if evalMem stride total c then
      match processEvalLine st (pyStrip l) with
      | .ok st2 => analyzeLines stride total st2 c ls
      | .error e => .error e
    else analyzeLines stride total st c ls

/-- Errors escaping `analyze_log_content`: `LogFileIsEmptyError` (raised on
`ZeroDivisionError`, i.e. `sample_lines = 0`) and the uncaught aborts. -/
inductive AnalyzeErr where
  | emptyFile
  | abort (a : PyAbort)
  deriving Repr, DecidableEq

/-- Result dictionary of `analyze_log_content`. -/
structure Summary where
  ips : IpTally
  datetimes : List (DKey × Nat)
  invalid_lines : Nat
  total_lines : Nat
  deriving Repr, DecidableEq

/-- `validator.analyze_log_content`: compute
`eval_lines = set(range(0, total_lines + 1, int(total_lines / sample_lines)))`
(`sample_lines = 0` ⇒ `ZeroDivisionError` ⇒ `LogFileIsEmptyError`; a zero
stride ⇒ uncaught `ValueError` from `range`), then run the line loop and
return the summary dictionary with `total_lines` passed through. -/
def analyze_log_content (lines : List String) (total_lines sample_lines : Nat) :
    Except AnalyzeErr Summary :=
  if sample_lines = 0 then .error .emptyFile
  else
    let stride := total_lines / sample_lines
    if stride = 0 then .error (.abort .rangeStepZero)
    else
      match analyzeLines stride total_lines initAState 0 lines with
      | .error a => .error (.abort a)
      | .ok st => .ok ⟨st.ips, st.datetimes, st.invalid_lines, total_lines⟩

/-! ## The validity evaluator -/

/-- `MIN_ACCEPTABLE_PERCENT_OF_REMOTE_IPS` (environment default `'10'`). -/
def MIN_ACCEPTABLE_PERCENT_OF_REMOTE_IPS : ℚ := 10

/-- `MIN_NUMBER_OF_SAMPLE_LINES` (environment default `'1000'`). -/
def MIN_NUMBER_OF_SAMPLE_LINES : Nat := 1000

/-- `validator.validate_ip_distribution`, applied to the counters it reads
out of the results dictionary (`remote`, `local` from `ips`, and
`total_lines`, each defaulting to 0 when absent).  Percentages are exact
rationals here (the source computes with `float`). -/
def validate_ip_distribution (remote_ips local_ips total_lines : Nat) : Bool :=
  if (remote_ips = 0 ∧ local_ips = 0) ∨ total_lines = 0 then false
  else
    let percent_remote_ips : ℚ := (remote_ips : ℚ) / (total_lines : ℚ) * 100
    let percent_local_ips : ℚ := (local_ips : ℚ) / (total_lines : ℚ) * 100
    if percent_remote_ips > percent_local_ips then true
    else if percent_remote_ips > MIN_ACCEPTABLE_PERCENT_OF_REMOTE_IPS then true
    else false

/-- `(year, month, day)` of a key, dropping the hour. -/
def dropHour (k : DKey) : Nat × Nat × Nat := (k.1, k.2.1, k.2.2.1)

/-- `ymd_to_freq[ymd] += frequency` with dictionary insertion order (new keys
appended with initial value 0, then incremented by `frequency`). -/
def addFreq : List ((Nat × Nat × Nat) × Nat) → Nat × Nat × Nat → Nat →
    List ((Nat × Nat × Nat) × Nat)
  | [], k, a => [(k, a)]
  | (k', v) :: rest, k, a =>
    if k' = k then (k', v + a) :: rest else (k', v) :: addFreq rest k a

/-- `validator.get_date_frequencies`, applied to the `datetimes` mapping it
reads out of the results dictionary: sum the frequencies per
`(year, month, day)`, iterating the mapping in insertion order. -/
def get_date_frequencies (file_content_dates : List (DKey × Nat)) :
    List ((Nat × Nat × Nat) × Nat) :=
  file_content_dates.foldl (fun acc kv => addFreq acc (dropHour kv.1) kv.2) []

/-- Stable ascending insertion by frequency: the new element goes after all
elements with a frequency less than or equal to its own. -/
def insSorted : List ((Nat × Nat × Nat) × Nat) → (Nat × Nat × Nat) × Nat →
    List ((Nat × Nat × Nat) × Nat)
  | [], x => [x]
  | y :: ys, x => if y.2 ≤ x.2 then y :: insSorted ys x else x :: y :: ys

/-- `sorted(ymd_to_freq.items(), key=operator.itemgetter(1))`: Python's
`sorted` is a stable sort; stable insertion sort computes the same list. -/
def sortByFreq (l : List ((Nat × Nat × Nat) × Nat)) : List ((Nat × Nat × Nat) × Nat) :=
  l.foldl insSorted []

/-- Return value of `get_probably_date`: a `datetime` or an
`{'error': …}` dictionary. -/
inductive ProbablyDate where
  | date (y m d : Nat)
  | err (msg : String)
  deriving Repr, DecidableEq

/-- `validator.get_probably_date`, applied to the `datetimes` mapping it
reads out of the results dictionary: sort the collapsed frequencies by count
and pop the last entry (`IndexError` on an empty mapping ⇒ error value), then
build `datetime(y, m, d)` (`ValueError` ⇒ error value). -/
def get_probably_date (file_content_dates : List (DKey × Nat)) : ProbablyDate :=
  match (sortByFreq (get_date_frequencies file_content_dates)).getLast? with
  | none => .err "Date dictionary is empty"
  | some (ymd, _) =>
    if isValidYMD ymd.1 ymd.2.1 ymd.2.2 then .date ymd.1 ymd.2.1 ymd.2.2
    else .err "Could not determine a probable date"

/-- `datetime.strptime(s, '%Y-%m-%d')` reduced to `(year, month, day)`:
four-digit year, one- or two-digit month and day, `-` separators, full
consumption, and a constructible date. -/
def strptimeYMD (s : String) : Option (Nat × Nat × Nat) :=
  match take4Digits s.data with
  | none => none
  | some (y, r1) =>
    match expectChar '-' r1 with
    | none => none
    | some r2 =>
      match take2Digits r2 with
      | none => none
      | some (m, r3) =>
        match expectChar '-' r3 with
        | none => none
        | some r4 =>
          match take2Digits r4 with
          | none => none
          | some (d, r5) =>
            if r5 = [] && isValidYMD y m d then some (y, m, d) else none

/-- Day ordinal of a calendar date (for `datetime` comparison and
`timedelta(days=n)` arithmetic). -/
def ordOfYMD (ymd : Nat × Nat × Nat) : Int :=
  daysFromCivil (ymd.1 : Int) ymd.2.1 ymd.2.2

/-- Modelled from the spec: `date_utils.date_is_significantly_earlier` (the
module `date_utils` is imported by `validator.py` but is not among the
source files).  Per §4.6 of the spec: the probable date is significantly
earlier when it is earlier than (reference date − `days_delta` days). -/
def date_is_significantly_earlier (d ref : Nat × Nat × Nat) (days_delta : Int) : Bool :=
  ordOfYMD d < ordOfYMD ref - days_delta

/-- Modelled from the spec: `date_utils.date_is_significantly_later` (the
module `date_utils` is imported by `validator.py` but is not among the
source files).  Per §4.6 of the spec: the probable date is significantly
later when it is later than (reference date + `days_delta` days). -/
def date_is_significantly_later (d ref : Nat × Nat × Nat) (days_delta : Int) : Bool :=
  ordOfYMD ref + days_delta < ordOfYMD d

/-- `validator.validate_date_consistency`, applied to the values it reads out
of the results dictionary: the path date string (`''` models a missing or
`None` value), the content `datetimes` mapping, and the probable date
(restricted here to the `datetime`-valued case of `get_probably_date`).
A negative `days_delta` is replaced by 5. -/
def validate_date_consistency (file_path_date : String)
    (file_content_dates : List (DKey × Nat)) (probably_date : Nat × Nat × Nat)
    (days_delta : Int) : Bool :=
  let dd := if days_delta < 0 then 5 else days_delta
  if file_path_date = "" ∨ file_content_dates = [] then false
  else
    match strptimeYMD file_path_date with
    | none => false
    | some fd =>
      if date_is_significantly_earlier probably_date fd dd then false
      else if date_is_significantly_later probably_date fd dd then false
      else true

/-! ## Path validation (`validate_path_name`) -/

/-- Value of one path attribute: the extractors of `file_utils` return a
string (date, collection, mimetype, extension), a boolean (paperboy), or
`None` (date or collection not found). -/
inductive PathAttr where
  | str (s : String)
  | flag (b : Bool)
  | noneVal
  deriving Repr, DecidableEq

/-- One entry of the `validate_path_name` result: the extractor's value, or
the inline `{'error': str(e)}` marker when it raised. -/
inductive AttrResult where
  | val (v : PathAttr)
  | err (msg : String)
  deriving Repr, DecidableEq

/-- The five attribute extractors (`file_utils.extract_date_from_path`,
`extract_collection_from_path`, `has_paperboy_format`,
`extract_mime_from_path`, `extract_file_extension_from_path`), abstracted as
functions that either return a value or raise. -/
structure PathExtractors where
  date : String → Except String PathAttr
  collection : String → Except String PathAttr
  paperboy : String → Except String PathAttr
  mimetype : String → Except String PathAttr
  extension : String → Except String PathAttr

/-- `try: results[name] = func(path) except Exception as e: results[name] = {'error': str(e)}`. -/
def wrapAttr (r : Except String PathAttr) : AttrResult :=
  match r with
  | .ok v => .val v
  | .error e => .err e

/-- `validator.validate_path_name`: iterate the five `(func_impl, func_name)`
pairs in source order, catching each extractor's exception independently. -/
def validate_path_name (fs : PathExtractors) (path : String) : List (String × AttrResult) :=
  [ (fs.date, "date"), (fs.collection, "collection"), (fs.paperboy, "paperboy"),
    (fs.mimetype, "mimetype"), (fs.extension, "extension") ].foldl
    (fun results p => results ++ [(p.2, wrapAttr (p.1 path))]) []

/-! ## Content validation (`validate_content`) -/

/-- The file errors raised by `get_total_lines` / `file_utils.open_file`:
`TruncatedLogFileError` (from `EOFError`), `InvalidLogFileMimeError`
(unsupported MIME type), `LogFileIsEmptyError` (`application/x-empty`). -/
inductive FileErr where
  | truncated
  | invalidMime
  | empty
  deriving Repr, DecidableEq

/-- Result of `validate_content` (the value of its `'summary'` key): the
analysis summary, or the `{'total_lines': {'error': …}}` object built by the
`except` clauses. -/
inductive ContentResult where
  | ok (s : Summary)
  | err (msg : String)
  deriving Repr, DecidableEq

/-- The message of the summary-level error object for each file error. -/
def fileErrMsg : FileErr → String
  | .truncated => "File is truncated"
  | .invalidMime => "File is invalid"
  | .empty => "File is empty"

/-- The sample-size clamp of `validate_content` (line 430):
`if sample_size > 1.0 or sample_size < 0.001: sample_size = 1.0`, followed by
the small-file override `if total_lines <= min_lines: sample_size = 1.0`. -/
def effectiveSampleSize (sample_size : ℚ) (total_lines min_lines : Nat) : ℚ :=
  let s := if sample_size > 1 ∨ sample_size < 1 / 1000 then 1 else sample_size
  if total_lines ≤ min_lines then 1 else s

/-- `sample_lines = int(total_lines * sample_size)` after clamping. -/
def sampleLinesOf (sample_size : ℚ) (total_lines min_lines : Nat) : Nat :=
  (⌊(total_lines : ℚ) * effectiveSampleSize sample_size total_lines min_lines⌋).toNat

/-- `validator.validate_content`.  The opened file is abstracted as either a
file error (raised by `get_total_lines`) or the list of its lines
(`total_lines` is their count); `TruncatedLogFileError`,
`InvalidLogFileMimeError` and `LogFileIsEmptyError` are converted to the
summary-level error object, anything else propagates. -/
def validate_content (file : Except FileErr (List String)) (sample_size : ℚ)
    (min_lines : Nat) : Except PyAbort ContentResult :=
  match file with
  | .error e => .ok (.err (fileErrMsg e))
  | .ok lines =>
    let total_lines := lines.length
    let sample_lines := sampleLinesOf sample_size total_lines min_lines
    match analyze_log_content lines total_lines sample_lines with
    | .ok s => .ok (.ok s)
    | .error .emptyFile => .ok (.err (fileErrMsg .empty))
    | .error (.abort a) => .error a

/-! ## Specification-side definitions

These definitions follow the words of the spec/claims (not the source); they
exist to be compared with the source-derived definitions above. -/

/-- The address-distribution pass condition in the claim's words (C5): not
both counts zero, a nonzero line count, and `pct_remote > pct_local` or
`pct_remote` above the minimum acceptable percentage (default 10). -/
def specIpDistributionPass (remote_ips local_ips total_lines : Nat) : Prop :=
  (¬(remote_ips = 0 ∧ local_ips = 0)) ∧ total_lines ≠ 0 ∧
    ((remote_ips : ℚ) / (total_lines : ℚ) * 100 > (local_ips : ℚ) / (total_lines : ℚ) * 100
      ∨ (remote_ips : ℚ) / (total_lines : ℚ) * 100 > 10)

/-- The effective sample fraction in the claim's words (C3): the request is
clamped to 1.0 when it lies outside the half-open interval (0.001, 1.0], and
forced to 1.0 when the total line count is (strictly) below the minimum. -/
def claimEffectiveFraction (sample_size : ℚ) (total_lines min_lines : Nat) : ℚ :=
  let s := if ¬(1 / 1000 < sample_size ∧ sample_size ≤ 1) then 1 else sample_size
  if total_lines < min_lines then 1 else s

/-- First pattern (in list order) that matches and classifies as
non-unknown, with its captures and class (C2, amended behaviour). -/
def specScanFirstGood (line : String) : List RE → Option (Caps × IpType)
  | [] => none
  | p :: rest =>
    match reMatch p line with
    | none => specScanFirstGood line rest
    | some c =>
      if ipTypeOfMatch c ≠ .unk then some (c, ipTypeOfMatch c)
      else specScanFirstGood line rest

/-- The amended description of the pattern loop (C2): the first pattern that
matches and classifies as non-unknown wins; otherwise the class is unknown
and the surviving match is whatever the **last** pattern of the list
returned. -/
def specScanAmended (line : String) (ps : List RE) : Option Caps × IpType :=
  match specScanFirstGood line ps with
  | some (c, t) => (some c, t)
  | none =>
    match ps.getLast? with
    | none => (none, .unk)
    | some q => (reMatch q line, .unk)

/-- Total datetime count of a summary (sum of all per-key counts). -/
def dtSum (l : List (DKey × Nat)) : Nat := (l.map Prod.snd).sum

/-- Number of evaluated (sampled) line indices among the `n` lines following
counter position `counter` (the 1-based indices `counter+1 … counter+n` that
are in the eval set). -/
def countEvalFrom (stride total counter : Nat) : Nat → Nat
  | 0 => 0
  | n + 1 =>
    (if evalMem stride total (counter + 1) then 1 else 0) +
      countEvalFrom stride total (counter + 1) n

/-- Lookup of an aggregated `(year, month, day)` frequency (0 when absent). -/
def freqLookup : List ((Nat × Nat × Nat) × Nat) → (Nat × Nat × Nat) → Nat
  | [], _ => 0
  | (k', v) :: rest, k => if k' = k then v else freqLookup rest k

/-- Total weight of a `(year, month, day)` in a datetimes mapping: the sum of
the counts of all keys that collapse to it when the hour is dropped. -/
def ymdWeight (dts : List (DKey × Nat)) (k : Nat × Nat × Nat) : Nat :=
  ((dts.filter (fun kv => dropHour kv.1 = k)).map Prod.snd).sum

/-- One step of the "maximal count, later entry wins ties" fold. -/
def maxStep (b : Option ((Nat × Nat × Nat) × Nat)) (x : (Nat × Nat × Nat) × Nat) :
    Option ((Nat × Nat × Nat) × Nat) :=
  match b with
  | none => some x
  | some b' => some (if b'.2 ≤ x.2 then x else b')

/-- The entry with the maximal count; among entries of equal maximal count,
the one occurring last in the list (C4, amended tie-break). -/
def lastMaxEntry (l : List ((Nat × Nat × Nat) × Nat)) : Option ((Nat × Nat × Nat) × Nat) :=
  l.foldl maxStep none

/-- Sortedness by frequency (non-decreasing counts). -/
def freqSorted : List ((Nat × Nat × Nat) × Nat) → Prop
  | [] => True
  | [_] => True
  | a :: b :: t => a.2 ≤ b.2 ∧ freqSorted (b :: t)

/-- A log line matched by no pattern (used as concrete counterexample
input). -/
def unmatchedLine : String := "abc"

/-- A log line that the single-address and address-list grammars match but
whose addresses (`-`) all classify as unknown, and that the domain and
vendor grammars do not match. -/
def unknownIpLine : String :=
  "- - - [12/Mar/2023:14:22:30 +0000] \"GET / H\" 200 10 \"r\" \"ua\""

/-- A well-formed NCSA-extended line with a remote client address. -/
def remoteLine : String :=
  "1.2.3.4 - - [12/Mar/2023:14:22:30 +0000] \"GET / H\" 200 10 \"r\" \"ua\""

/-- A line matched by the base grammar whose date field (`99/Mar/…`) fails to
normalize. -/
def badDateLine : String :=
  "1.2.3.4 - - [99/Mar/2023:14:22:30 +0000] \"GET / H\" 200 10 \"r\" \"ua\""

/-! ## Theorems -/

/-- **C5**: `validate_ip_distribution` returns `False` whenever both counts
are zero or `total_lines` is zero, and otherwise returns `True` iff the
remote percentage strictly exceeds the local percentage or strictly exceeds
the configured minimum (default 10); the four cited examples evaluate as the
claim states. -/
theorem validate_ip_distribution_matches_spec :
    (∀ r l t, validate_ip_distribution r l t = true ↔ specIpDistributionPass r l t)
    ∧ validate_ip_distribution 5 3 10 = true
    ∧ validate_ip_distribution 0 3 8 = false
    ∧ validate_ip_distribution 9 91 100 = false
    ∧ validate_ip_distribution 11 89 100 = true := by
  have key : ∀ r l t, validate_ip_distribution r l t = true ↔ specIpDistributionPass r l t := by
    intro r l t
    simp only [validate_ip_distribution, specIpDistributionPass,
      MIN_ACCEPTABLE_PERCENT_OF_REMOTE_IPS]
    split_ifs with h1 h2 h3
    · simp only [false_iff]
      rcases h1 with hrl | ht
      · exact fun hs => hs.1 hrl
      · exact fun hs => hs.2.1 ht
    · simp only [true_iff]
      exact ⟨fun hrl => h1 (Or.inl hrl), fun ht => h1 (Or.inr ht), Or.inl h2⟩
    · simp only [true_iff]
      exact ⟨fun hrl => h1 (Or.inl hrl), fun ht => h1 (Or.inr ht), Or.inr h3⟩
    · simp only [false_iff]
      rintro ⟨-, -, h | h⟩
      · exact h2 h
      · exact h3 h
  refine ⟨key, ?_, ?_, ?_, ?_⟩
  · exact (key 5 3 10).mpr ⟨by norm_num, by norm_num, Or.inl (by norm_num)⟩
  · rw [Bool.eq_false_iff]
    intro h
    rcases ((key 0 3 8).mp h).2.2 with h' | h' <;> norm_num at h'
  · rw [Bool.eq_false_iff]
    intro h
    rcases ((key 9 91 100).mp h).2.2 with h' | h' <;> norm_num at h'
  · exact (key 11 89 100).mpr ⟨by norm_num, by norm_num, Or.inr (by norm_num)⟩

/-- **C7**: the formatted-date entry point drops the offset token and parses
strictly (`"12/Mar/2023:14:22:30 +0000"` ↦ `(2023, 3, 12, 14)`); the epoch
entry point parses the string as an integer and decomposes it as local-time
seconds since the epoch (`"1755473648"` ↦ `(2025, 8, 17, 20)` in the tested
environment's UTC−03:00 zone); every string rejected by `int(...)` —
including the empty string — produces the `InvalidTimestampContentError`. -/
theorem timestamp_normalizer_matches_spec :
    get_year_month_day_hour_from_date_str "12/Mar/2023:14:22:30 +0000" = .ok (2023, 3, 12, 14)
    ∧ get_year_month_day_hour_from_timestamp (.str "1755473648") = .ok (2025, 8, 17, 20)
    ∧ (∀ s, pyParseInt s = none →
        get_year_month_day_hour_from_timestamp (.str s) = .error .invalidContent)
    ∧ pyParseInt "" = none := by
  refine ⟨by rfl, by rfl, ?_, by rfl⟩
  intro s h
  simp only [get_year_month_day_hour_from_timestamp, h]

/-- Witness for C7: the third conjunct applied to the empty string. -/
theorem timestamp_normalizer_matches_spec_witness :
    get_year_month_day_hour_from_timestamp (.str "") = .error .invalidContent :=
  timestamp_normalizer_matches_spec.2.2.1 "" timestamp_normalizer_matches_spec.2.2.2

/-- **C9**: `validate_path_name` always produces entries for exactly the five
attributes `date`, `collection`, `paperboy`, `mimetype`, `extension` (in
source order), and each entry is its own extractor's wrapped result — an
extractor that raises yields an inline error marker for that attribute only,
without affecting any other attribute. -/
theorem validate_path_name_attributes_independent :
    ∀ (fs : PathExtractors) (path : String),
      (validate_path_name fs path).map Prod.fst =
        ["date", "collection", "paperboy", "mimetype", "extension"]
      ∧ (validate_path_name fs path).lookup "date" = some (wrapAttr (fs.date path))
      ∧ (validate_path_name fs path).lookup "collection" = some (wrapAttr (fs.collection path))
      ∧ (validate_path_name fs path).lookup "paperboy" = some (wrapAttr (fs.paperboy path))
      ∧ (validate_path_name fs path).lookup "mimetype" = some (wrapAttr (fs.mimetype path))
      ∧ (validate_path_name fs path).lookup "extension" = some (wrapAttr (fs.extension path)) :=
  fun fs path => ⟨rfl, rfl, rfl, rfl, rfl, rfl⟩

/-- Counterexample for C1: the line `"abc"` is matched by no grammar pattern,
yet the analyzer counts it **both** as an invalid line and in the `unknown`
bucket of the `ips` tally — unmatched lines are not excluded from the
tally. -/
theorem unmatched_line_lands_in_unknown_bucket :
    reMatch PATTERN_NCSA_EXTENDED_LOG_FORMAT unmatchedLine = none
    ∧ reMatch PATTERN_NCSA_EXTENDED_LOG_FORMAT_DOMAIN unmatchedLine = none
    ∧ reMatch PATTERN_NCSA_EXTENDED_LOG_FORMAT_WITH_IP_LIST unmatchedLine = none
    ∧ reMatch PATTERN_NCSA_EXTENDED_LOG_FORMAT_DOMAIN_WITH_IP_LIST unmatchedLine = none
    ∧ reMatch PATTERN_BUNNY unmatchedLine = none
    ∧ analyze_log_content [unmatchedLine] 1 1 = .ok ⟨⟨0, 0, 1⟩, [], 1, 1⟩ :=
  ⟨by rfl, by rfl, by rfl, by rfl, by rfl, by rfl⟩

/-- Counterexample for C4: two days with the same (maximal) aggregated
count; the code returns the chronologically **earlier** day 2023-01-01
(the one inserted later), not the chronologically latest 2023-05-05. -/
theorem get_probably_date_tiebreak_counterexample :
    get_probably_date [((2023, 5, 5, 0), 2), ((2023, 1, 1, 0), 2)] = .date 2023 1 1
    ∧ freqLookup (get_date_frequencies [((2023, 5, 5, 0), 2), ((2023, 1, 1, 0), 2)]) (2023, 5, 5) = 2
    ∧ freqLookup (get_date_frequencies [((2023, 5, 5, 0), 2), ((2023, 1, 1, 0), 2)]) (2023, 1, 1) = 2 := by
  refine ⟨by rfl, by rfl, by rfl⟩

/-- Counterexample for C3: the code clamps with `sample_size < 0.001`, so a
requested fraction of exactly 0.001 — outside the claim's open interval
`(0.001, 1.0]` — is **kept**, not clamped to 1.0 (sample 10 of 10000, not
10000); and the small-file override fires already at
`total_lines = min_lines` (code: `<=`), while the claim's "below" would keep
the requested fraction. -/
theorem sampler_clamp_boundary_counterexample :
    claimEffectiveFraction (1 / 1000) 10000 1000 = 1
    ∧ effectiveSampleSize (1 / 1000) 10000 1000 = 1 / 1000
    ∧ sampleLinesOf (1 / 1000) 10000 1000 = 10
    ∧ claimEffectiveFraction (1 / 2) 1000 1000 = 1 / 2
    ∧ effectiveSampleSize (1 / 2) 1000 1000 = 1
    ∧ sampleLinesOf (1 / 2) 1000 1000 = 1000 := by
  have e1 : effectiveSampleSize (1 / 1000) 10000 1000 = 1 / 1000 := by
    show (if (10000 : Nat) ≤ 1000 then (1 : ℚ)
          else if (1 : ℚ) / 1000 > 1 ∨ (1 : ℚ) / 1000 < 1 / 1000 then 1 else 1 / 1000) = 1 / 1000
    rw [if_neg (by norm_num), if_neg (by norm_num)]
  have e2 : effectiveSampleSize (1 / 2) 1000 1000 = 1 := by
    show (if (1000 : Nat) ≤ 1000 then (1 : ℚ)
          else if (1 : ℚ) / 2 > 1 ∨ (1 : ℚ) / 2 < 1 / 1000 then 1 else 1 / 2) = 1
    rw [if_pos (by norm_num)]
  refine ⟨?_, e1, ?_, ?_, e2, ?_⟩
  · show (if (10000 : Nat) < 1000 then (1 : ℚ)
          else if ¬((1 : ℚ) / 1000 < 1 / 1000 ∧ (1 : ℚ) / 1000 ≤ 1) then 1 else 1 / 1000) = 1
    rw [if_neg (by norm_num), if_pos (by norm_num)]
  · show (⌊(10000 : ℚ) * effectiveSampleSize (1 / 1000) 10000 1000⌋).toNat = 10
    rw [e1]
    norm_num
    rfl
  · show (if (1000 : Nat) < 1000 then (1 : ℚ)
          else if ¬((1 : ℚ) / 1000 < 1 / 2 ∧ (1 : ℚ) / 2 ≤ 1) then 1 else 1 / 2) = 1 / 2
    rw [if_neg (by norm_num), if_neg (by push_neg; norm_num)]
  · show (⌊(1000 : ℚ) * effectiveSampleSize (1 / 2) 1000 1000⌋).toNat = 1000
    rw [e2]
    norm_num
    rfl

/-- **C1 (amended)**: a sampled line that no pattern matches increments
`invalid_lines` **and** is tallied into the `unknown` bucket of `ips`; every
evaluated line contributes exactly one increment to the `ips` tally (the
tally is not restricted to matched lines). -/
theorem unmatched_line_increments_unknown_and_invalid :
    ∀ (st : AState) (line : String),
      scanPatterns line patterns = (none, IpType.unk) →
      processEvalLine st line =
        .ok { st with ips := st.ips.inc .unk, invalid_lines := st.invalid_lines + 1 } := by
  intro st line h
  simp only [processEvalLine, h]

/-- Witness for the amended C1: the theorem applied to the initial state and
the unmatched line `"abc"`. -/
theorem unmatched_line_increments_unknown_and_invalid_witness :
    processEvalLine initAState unmatchedLine = .ok ⟨⟨0, 0, 1⟩, [], 1, none⟩ :=
  unmatched_line_increments_unknown_and_invalid initAState unmatchedLine (by decide)

/-- Counterexample for C2: on `unknownIpLine`, the single-address pattern
(first in code order) and the address-list pattern (third in code order,
second in the claim's order) both match, with a parseable date capture
`"12/Mar/2023:14:22:30"` — so under "the first matching pattern's captures
alone determine the line's … date field, and no later pattern is consulted",
the line's datetime would be recorded.  The code instead keeps consulting
later patterns (the match classifies as unknown), the last two patterns do
not match, the surviving `match` is `None`, and the line is counted invalid
with no datetime recorded. -/
theorem first_match_does_not_determine_line :
    (reMatch PATTERN_NCSA_EXTENDED_LOG_FORMAT unknownIpLine).isSome = true
    ∧ (reMatch PATTERN_NCSA_EXTENDED_LOG_FORMAT_WITH_IP_LIST unknownIpLine).isSome = true
    ∧ capGetD ((reMatch PATTERN_NCSA_EXTENDED_LOG_FORMAT_WITH_IP_LIST unknownIpLine).getD [])
        "date" "" = "12/Mar/2023:14:22:30"
    ∧ get_year_month_day_hour_from_date_str "12/Mar/2023:14:22:30" = .ok (2023, 3, 12, 14)
    ∧ analyze_log_content [unknownIpLine] 1 1 = .ok ⟨⟨0, 0, 1⟩, [], 1, 1⟩ := by
  refine ⟨by rfl, by rfl, by rfl, by rfl, by rfl⟩

set_option maxRecDepth 4096 in
/-- **C2 (amended)**: the patterns are tried in the source's order — single
address, domain + single address, address list, domain + address list, then
the vendor epoch format — and the scan stops at the first pattern that both
matches and yields a non-unknown address classification.  When no matching
pattern classifies as non-unknown, the line's class is unknown and the
surviving captures are those of the **last** pattern in the list (so a line
matched only by earlier patterns ends with no match at all). -/
theorem scanPatterns_matches_amended_spec :
    patterns = [ PATTERN_NCSA_EXTENDED_LOG_FORMAT,
                 PATTERN_NCSA_EXTENDED_LOG_FORMAT_DOMAIN,
                 PATTERN_NCSA_EXTENDED_LOG_FORMAT_WITH_IP_LIST,
                 PATTERN_NCSA_EXTENDED_LOG_FORMAT_DOMAIN_WITH_IP_LIST,
                 PATTERN_BUNNY ]
    ∧ ∀ (line : String) (ps : List RE), scanPatterns line ps = specScanAmended line ps := by
  refine ⟨rfl, ?_⟩
  intro line ps
  induction ps with
  | nil => rfl
  | cons p rest ih =>
    simp only [scanPatterns, specScanAmended, specScanFirstGood]
    cases hm : reMatch p line with
    | none =>
      simp only [ih, specScanAmended]
      cases hfg : specScanFirstGood line rest with
      | some c => rfl
      | none =>
        cases rest with
        | nil => simp only [List.getLast?_nil, List.getLast?_singleton, hm]
        | cons q qs => simp only [List.getLast?_cons_cons]
    | some c =>
      by_cases ht : ipTypeOfMatch c = IpType.unk
      · cases rest with
        | nil =>
          simp only [ht, if_pos rfl, ne_eq, not_true_eq_false, if_false, List.isEmpty_nil,
            if_true, specScanFirstGood, List.getLast?_singleton, hm]
        | cons q qs =>
          simp only [ht, if_pos rfl, ne_eq, not_true_eq_false, if_false, if_true,
            List.isEmpty_cons, Bool.false_eq_true, ih, specScanAmended, List.getLast?_cons_cons]
      · simp only [if_neg ht, ne_eq, ht, not_false_eq_true, if_true, if_false]

/-- **C8**: per-line parse failures never abort the pass — an unmatched line,
a matched line whose date fails to normalize, and a matched line whose epoch
fails to normalize each produce a normal (`.ok`) successor state with
`invalid_lines` incremented — while the three file-level failures
(truncated, unsupported MIME, empty) make `validate_content` return the
summary-level error object instead of propagating. -/
theorem per_line_failures_never_abort :
    (∀ (st : AState) (line : String) (t : IpType),
        scanPatterns line patterns = (none, t) →
        processEvalLine st line =
          .ok { st with ips := st.ips.inc t, invalid_lines := st.invalid_lines + 1 })
    ∧ (∀ (st : AState) (line : String) (content : Caps) (t : IpType),
        scanPatterns line patterns = (some content, t) →
        capGetD content "date" "" ≠ "" →
        get_year_month_day_hour_from_date_str (capGetD content "date" "") = .error () →
        processEvalLine st line =
          .ok { st with ips := st.ips.inc t, invalid_lines := st.invalid_lines + 1 })
    ∧ (∀ (st : AState) (line : String) (content : Caps) (t : IpType) (e : TsErr),
        scanPatterns line patterns = (some content, t) →
        capGetD content "date" "" = "" →
        capGetD content "timestamp" "" ≠ "" →
        get_year_month_day_hour_from_timestamp (.str (capGetD content "timestamp" "")) = .error e →
        processEvalLine st line =
          .ok { st with ips := st.ips.inc t, invalid_lines := st.invalid_lines + 1 })
    ∧ (∀ (sz : ℚ) (min : Nat), validate_content (.error .empty) sz min = .ok (.err "File is empty"))
    ∧ (∀ (sz : ℚ) (min : Nat), validate_content (.error .truncated) sz min = .ok (.err "File is truncated"))
    ∧ (∀ (sz : ℚ) (min : Nat), validate_content (.error .invalidMime) sz min = .ok (.err "File is invalid")) := by
  refine ⟨?_, ?_, ?_, fun _ _ => rfl, fun _ _ => rfl, fun _ _ => rfl⟩
  · intro st line t h
    simp only [processEvalLine, h]
  · intro st line content t h hne herr
    simp only [processEvalLine, h]
    rw [if_pos hne, herr]
  · intro st line content t e h hd hts herr
    simp only [processEvalLine, h]
    rw [if_neg (not_not_intro hd), if_pos hts, herr]

/-- Witness for C8: the matched-line-with-bad-date case applied to
`badDateLine` (`99/Mar/…` fails `strptime`): the line is counted invalid and
the pass goes on with a normal state. -/
theorem per_line_failures_never_abort_witness :
    processEvalLine initAState badDateLine = .ok ⟨⟨0, 1, 0⟩, [], 1, none⟩ :=
  per_line_failures_never_abort.2.1 initAState badDateLine
    [("user_agent", "ua"), ("referrer", "r"), ("length", "10"), ("status", "200"),
     ("path", "/"), ("method", "GET"), ("timezone", "+0000"),
     ("date", "99/Mar/2023:14:22:30"), ("userid", "-"), ("ip", "1.2.3.4")]
    .rem (by rfl) (by decide) (by rfl)

/-- **C6**: `validate_date_consistency` is `False` when the path date is
missing, when the content date mapping is empty, or when the path date does
not parse as `YYYY-MM-DD`; otherwise (for a nonnegative `days_delta` `N`) it
is `True` exactly when the probable date lies in the closed window
`[path date − N days, path date + N days]`; the two cited examples hold with
the default `N = 5`. -/
theorem validate_date_consistency_matches_spec :
    (∀ dts p dd, validate_date_consistency "" dts p dd = false)
    ∧ (∀ s p dd, validate_date_consistency s [] p dd = false)
    ∧ (∀ s dts p dd, strptimeYMD s = none → validate_date_consistency s dts p dd = false)
    ∧ (∀ s dts p dd fd, 0 ≤ dd → strptimeYMD s = some fd → dts ≠ [] →
        (validate_date_consistency s dts p dd = true ↔
          ordOfYMD fd - dd ≤ ordOfYMD p ∧ ordOfYMD p ≤ ordOfYMD fd + dd))
    ∧ validate_date_consistency "2023-01-01" [((2023, 1, 1, 0), 1)] (2023, 1, 1) 5 = true
    ∧ validate_date_consistency "2023-01-01" [((2023, 10, 30, 0), 1)] (2023, 10, 30) 5 = false := by
  refine ⟨?_, ?_, ?_, ?_, by rfl, by rfl⟩
  · intro dts p dd
    simp only [validate_date_consistency]
    rw [if_pos (Or.inl trivial)]
  · intro s p dd
    simp only [validate_date_consistency]
    rw [if_pos (Or.inr trivial)]
  · intro s dts p dd h
    simp only [validate_date_consistency, h, ite_self]
  · intro s dts p dd fd h0 hparse hne
    have hcond : ¬(s = "" ∨ dts = []) := by
      rintro (rfl | rfl)
      · rw [show strptimeYMD "" = none from rfl] at hparse
        cases hparse
      · exact hne rfl
    simp only [validate_date_consistency]
    rw [if_neg (not_lt.mpr h0), if_neg hcond, hparse]
    simp only [date_is_significantly_earlier, date_is_significantly_later]
    split_ifs with h1 h2
    · simp only [decide_eq_true_eq] at h1
      simp only [false_iff]
      omega
    · simp only [decide_eq_true_eq] at h2
      simp only [false_iff]
      omega
    · simp only [decide_eq_true_eq, not_lt] at h1 h2
      simp only [true_iff]
      omega

/-- Witness for C6: the in-window clause applied to path date 2023-01-01 and
probable date 2023-01-03 with `N = 5`. -/
theorem validate_date_consistency_matches_spec_witness :
    validate_date_consistency "2023-01-01" [((2023, 1, 3, 0), 1)] (2023, 1, 3) 5 = true :=
  (validate_date_consistency_matches_spec.2.2.2.1 "2023-01-01" [((2023, 1, 3, 0), 1)]
    (2023, 1, 3) 5 (2023, 1, 1) (by decide) (by rfl) (by decide)).mpr (by decide)

/-- **C3 (amended)**: the effective fraction is the request clamped to 1.0
when it lies outside the **closed** interval `[0.001, 1.0]`, and forced to
1.0 when `total_lines` is **at most** the configured minimum;
`sample_lines = ⌊total_lines · fraction⌋`; for `1 ≤ sample_lines ≤
total_lines` the evaluated indices are exactly the multiples of
`stride = ⌊total_lines / sample_lines⌋` up to `total_lines`; and
`sample_lines = 0` raises the empty-file condition. -/
theorem sampler_matches_amended_spec :
    (∀ (sz : ℚ) (total min : Nat),
        effectiveSampleSize sz total min =
          if total ≤ min then 1 else if 1 / 1000 ≤ sz ∧ sz ≤ 1 then sz else 1)
    ∧ (∀ (sz : ℚ) (total min : Nat), sampleLinesOf sz total min =
        (⌊(total : ℚ) * effectiveSampleSize sz total min⌋).toNat)
    ∧ (∀ total sample i, 1 ≤ sample → sample ≤ total →
        (evalMem (total / sample) total i = true ↔
          (∃ k, i = total / sample * k) ∧ i ≤ total))
    ∧ (∀ (lines : List String) (total : Nat),
        analyze_log_content lines total 0 = .error .emptyFile)
    ∧ (∀ (lines : List String) (sz : ℚ) (min : Nat),
        validate_content (.ok lines) sz min =
          match analyze_log_content lines lines.length (sampleLinesOf sz lines.length min) with
          | .ok s => .ok (.ok s)
          | .error .emptyFile => .ok (.err "File is empty")
          | .error (.abort a) => .error a) := by
  refine ⟨?_, fun _ _ _ => rfl, ?_, fun _ _ => rfl, fun _ _ _ => rfl⟩
  · intro sz total min
    simp only [effectiveSampleSize]
    by_cases hm : total ≤ min
    · rw [if_pos hm, if_pos hm]
    · rw [if_neg hm, if_neg hm]
      by_cases hc : sz > 1 ∨ sz < 1 / 1000
      · rw [if_pos hc]
        rcases hc with h | h
        · rw [if_neg (fun hand => absurd hand.2 (not_le.mpr h))]
        · rw [if_neg (fun hand => absurd hand.1 (not_le.mpr h))]
      · push_neg at hc
        rw [if_neg (by rintro (h | h); exacts [absurd hc.1 (not_le.mpr h), absurd hc.2 (not_le.mpr h)]),
          if_pos ⟨hc.2, hc.1⟩]
  · intro total sample i h1 hst
    have hpos : 0 < total / sample := Nat.div_pos hst h1
    simp only [evalMem, Bool.and_eq_true, beq_iff_eq, decide_eq_true_eq]
    constructor
    · rintro ⟨hmod, hle⟩
      rcases Nat.dvd_of_mod_eq_zero hmod with ⟨k, hk⟩
      exact ⟨⟨k, hk⟩, hle⟩
    · rintro ⟨⟨k, hk⟩, hle⟩
      subst hk
      exact ⟨Nat.mul_mod_right _ _, hle⟩

/-- Witness for the amended C3: with 10 total lines and 3 sample lines
(stride 3), index 6 = 3·2 is evaluated. -/
theorem sampler_matches_amended_spec_witness :
    evalMem (10 / 3) 10 6 = true :=
  (sampler_matches_amended_spec.2.2.1 10 3 6 (by decide) (by decide)).mpr
    ⟨⟨2, by decide⟩, by decide⟩

/-- `datetimes[k] += 1` grows the total datetime count by one. -/
theorem dtSum_bumpAssoc (l : List (DKey × Nat)) (k : DKey) :
    dtSum (bumpAssoc l k) = dtSum l + 1 := by
  induction l with
  | nil => rfl
  | cons kv rest ih =>
    obtain ⟨k', v⟩ := kv
    simp only [bumpAssoc]
    split_ifs with h
    · simp only [dtSum, List.map_cons, List.sum_cons]
      omega
    · simp only [dtSum, List.map_cons, List.sum_cons] at ih ⊢
      omega

/-- `ips[t] += 1` grows the bucket total by one. -/
theorem ipsSum_inc (t : IpTally) (ty : IpType) :
    (t.inc ty).loc + (t.inc ty).rem + (t.inc ty).unk = t.loc + t.rem + t.unk + 1 := by
  cases ty <;> simp only [IpTally.inc] <;> omega

/-- Each successfully processed sampled line adds exactly one to the `ips`
tally and exactly one to `datetimes`-total-plus-`invalid_lines`. -/
theorem processEvalLine_counts (st st' : AState) (line : String)
    (h : processEvalLine st line = .ok st') :
    st'.ips.loc + st'.ips.rem + st'.ips.unk = st.ips.loc + st.ips.rem + st.ips.unk + 1
    ∧ dtSum st'.datetimes + st'.invalid_lines = dtSum st.datetimes + st.invalid_lines + 1 := by
  simp only [processEvalLine] at h
  have hinc := ipsSum_inc st.ips (scanPatterns line patterns).2
  split at h
  · injection h with h2
    subst h2
    exact ⟨hinc, by dsimp only; omega⟩
  · split at h
    · split at h
      · injection h with h2
        subst h2
        exact ⟨hinc, by dsimp only; rw [dtSum_bumpAssoc]; omega⟩
      · injection h with h2
        subst h2
        exact ⟨hinc, by dsimp only; omega⟩
    · split at h
      · split at h
        · injection h with h2
          subst h2
          exact ⟨hinc, by dsimp only; rw [dtSum_bumpAssoc]; omega⟩
        · injection h with h2
          subst h2
          exact ⟨hinc, by dsimp only; omega⟩
      · split at h
        · injection h with h2
          subst h2
          exact ⟨hinc, by dsimp only; rw [dtSum_bumpAssoc]; omega⟩
        · cases h

/-- The line loop adds one `ips` increment and one `datetimes`-or-`invalid`
increment per evaluated index. -/
theorem analyzeLines_counts (stride total : Nat) :
    ∀ (ls : List String) (st : AState) (counter : Nat) (st' : AState),
      analyzeLines stride total st counter ls = .ok st' →
      st'.ips.loc + st'.ips.rem + st'.ips.unk =
        st.ips.loc + st.ips.rem + st.ips.unk + countEvalFrom stride total counter ls.length
      ∧ dtSum st'.datetimes + st'.invalid_lines =
        dtSum st.datetimes + st.invalid_lines + countEvalFrom stride total counter ls.length := by
  intro ls
  induction ls with
  | nil =>
    intro st counter st' h
    injection h with h2
    subst h2
    simp [countEvalFrom]
  | cons l rest ih =>
    intro st counter st' h
    simp only [analyzeLines] at h
    simp only [List.length_cons, countEvalFrom]
    by_cases he : evalMem stride total (counter + 1) = true
    · rw [if_pos he] at h
      rw [he, if_pos rfl]
      cases hp : processEvalLine st (pyStrip l) with
      | error e => rw [hp] at h; cases h
      | ok st2 =>
        rw [hp] at h
        have hc := processEvalLine_counts _ _ _ hp
        have hrest := ih st2 (counter + 1) st' h
        omega
    · rw [if_neg he] at h
      rw [Bool.not_eq_true] at he
      rw [he, if_neg Bool.false_ne_true]
      have hrest := ih st (counter + 1) st' h
      omega

/-- **C10**: when `analyze_log_content` returns a summary, the three `ips`
buckets sum to the number of evaluated line indices, that same sum equals
the total of all `datetimes` counts plus `invalid_lines`, and `total_lines`
is returned unchanged. -/
theorem analyze_log_content_invariants :
    ∀ (lines : List String) (total sample : Nat) (s : Summary),
      analyze_log_content lines total sample = .ok s →
      s.ips.loc + s.ips.rem + s.ips.unk =
        countEvalFrom (total / sample) total 0 lines.length
      ∧ s.ips.loc + s.ips.rem + s.ips.unk = dtSum s.datetimes + s.invalid_lines
      ∧ s.total_lines = total := by
  intro lines total sample s h
  simp only [analyze_log_content] at h
  split at h
  · cases h
  · split at h
    · cases h
    · cases hrun : analyzeLines (total / sample) total initAState 0 lines with
      | error a => rw [hrun] at h; cases h
      | ok st =>
        rw [hrun] at h
        injection h with h2
        subst h2
        have hc := analyzeLines_counts (total / sample) total lines initAState 0 st hrun
        simp only [initAState, dtSum, List.map_nil, List.sum_nil] at hc
        refine ⟨?_, ?_, rfl⟩
        · dsimp only
          omega
        · dsimp only
          simp only [dtSum]
          omega

/-- Witness for C10: the invariant on the single-line file `[remoteLine]`
analyzed with `total_lines = sample_lines = 1`. -/
theorem analyze_log_content_invariants_witness :
    (0 : Nat) + 1 + 0 = countEvalFrom (1 / 1) 1 0 [remoteLine].length
    ∧ (0 : Nat) + 1 + 0 = dtSum [((2023, 3, 12, 14), 1)] + 0
    ∧ (1 : Nat) = 1 :=
  analyze_log_content_invariants [remoteLine] 1 1
    ⟨⟨0, 1, 0⟩, [((2023, 3, 12, 14), 1)], 0, 1⟩ (by rfl)

/-- Sortedness is preserved by dropping the head. -/
theorem freqSorted_tail {a : (Nat × Nat × Nat) × Nat} {l : List ((Nat × Nat × Nat) × Nat)}
    (h : freqSorted (a :: l)) : freqSorted l := by
  cases l with
  | nil => trivial
  | cons b t => exact h.2

/-- `getLast?` skips a cons onto a nonempty list. -/
theorem getLast?_cons_of_ne_nil {α : Type} (a : α) :
    ∀ (t : List α), t ≠ [] → (a :: t).getLast? = t.getLast? := by
  intro t ht
  cases t with
  | nil => exact absurd rfl ht
  | cons b u => exact List.getLast?_cons_cons ..

/-- Stable insertion never produces the empty list. -/
theorem insSorted_ne_nil (l : List ((Nat × Nat × Nat) × Nat)) (x : (Nat × Nat × Nat) × Nat) :
    insSorted l x ≠ [] := by
  cases l with
  | nil => simp [insSorted]
  | cons y ys =>
    simp only [insSorted]
    split_ifs <;> simp

/-- In a sorted list, the head's count bounds the last element's count. -/
theorem freqSorted_head_le_getLast :
    ∀ (l : List ((Nat × Nat × Nat) × Nat)) (a b : (Nat × Nat × Nat) × Nat),
      freqSorted (a :: l) → (a :: l).getLast? = some b → a.2 ≤ b.2 := by
  intro l
  induction l with
  | nil =>
    intro a b _ hb
    rw [List.getLast?_singleton] at hb
    cases hb
    exact le_refl _
  | cons z t ih =>
    intro a b hs hb
    rw [List.getLast?_cons_cons] at hb
    exact le_trans hs.1 (ih z b hs.2 hb)

/-- Stable insertion preserves sortedness by count. -/
theorem freqSorted_insSorted :
    ∀ (l : List ((Nat × Nat × Nat) × Nat)) (x : (Nat × Nat × Nat) × Nat),
      freqSorted l → freqSorted (insSorted l x) := by
  intro l
  induction l with
  | nil => intro x _; trivial
  | cons y ys ih =>
    intro x hs
    simp only [insSorted]
    split_ifs with h
    · cases ys with
      | nil => exact ⟨h, trivial⟩
      | cons z t =>
        have ht := ih x (freqSorted_tail hs)
        simp only [insSorted] at ht ⊢
        split_ifs at ht ⊢ with h2
        · exact ⟨hs.1, ht⟩
        · exact ⟨h, ht⟩
    · exact ⟨le_of_not_le h, hs⟩

/-- The last element after a stable insertion: the inserted element when its
count is at least the previous last count, the previous last otherwise. -/
theorem insSorted_getLast? :
    ∀ (l : List ((Nat × Nat × Nat) × Nat)) (x : (Nat × Nat × Nat) × Nat),
      freqSorted l →
      (insSorted l x).getLast? =
        some (l.getLast?.elim x (fun b => if b.2 ≤ x.2 then x else b)) := by
  intro l
  induction l with
  | nil => intro x _; rfl
  | cons y ys ih =>
    intro x hs
    simp only [insSorted]
    split_ifs with h
    · rw [getLast?_cons_of_ne_nil y _ (insSorted_ne_nil ys x),
        ih x (freqSorted_tail hs)]
      cases ys with
      | nil => simp [h]
      | cons z t => rw [List.getLast?_cons_cons]
    · cases hb : (y :: ys).getLast? with
      | none => exact absurd (List.getLast?_eq_none_iff.mp hb) (by simp)
      | some b =>
        rw [getLast?_cons_of_ne_nil x _ (by simp), hb]
        have hyb := freqSorted_head_le_getLast ys y b hs hb
        have : ¬b.2 ≤ x.2 := fun hbx => h (le_trans hyb hbx)
        simp [Option.elim, this]

/-- `getLast?` of the insertion-sort fold is the "maximal count, later entry
wins ties" fold. -/
theorem foldl_insSorted_getLast? :
    ∀ (l acc : List ((Nat × Nat × Nat) × Nat)), freqSorted acc →
      (l.foldl insSorted acc).getLast? = l.foldl maxStep acc.getLast? := by
  intro l
  induction l with
  | nil => intro acc _; rfl
  | cons x xs ih =>
    intro acc hacc
    simp only [List.foldl_cons]
    rw [ih (insSorted acc x) (freqSorted_insSorted acc x hacc),
      insSorted_getLast? acc x hacc]
    cases hacc' : acc.getLast? with
    | none => rfl
    | some b => rfl

/-- `sorted(....items(), key=itemgetter(1)).pop()` picks the entry produced
by the `maxStep` fold. -/
theorem sortByFreq_getLast? (l : List ((Nat × Nat × Nat) × Nat)) :
    (sortByFreq l).getLast? = lastMaxEntry l :=
  foldl_insSorted_getLast? l [] trivial

/-- Lookup after adding `a` to key `key`. -/
theorem freqLookup_addFreq :
    ∀ (acc : List ((Nat × Nat × Nat) × Nat)) (key : Nat × Nat × Nat) (a : Nat)
      (k : Nat × Nat × Nat),
      freqLookup (addFreq acc key a) k =
        freqLookup acc k + (if key = k then a else 0) := by
  intro acc
  induction acc with
  | nil =>
    intro key a k
    simp only [addFreq, freqLookup]
    split_ifs <;> omega
  | cons kv rest ih =>
    intro key a k
    obtain ⟨k', v⟩ := kv
    simp only [addFreq]
    by_cases h : k' = key
    · subst h
      rw [if_pos rfl]
      simp only [freqLookup]
      by_cases h2 : k' = k
      · rw [if_pos h2, if_pos h2, if_pos h2]
      · rw [if_neg h2, if_neg h2, if_neg h2]
        omega
    · rw [if_neg h]
      simp only [freqLookup]
      by_cases h2 : k' = k
      · have hkey : ¬key = k := fun hk => h (h2.trans hk.symm)
        rw [if_pos h2, if_pos h2, if_neg hkey]
        omega
      · rw [if_neg h2, if_neg h2, ih]

/-- Weight of a key in a one-longer mapping. -/
theorem ymdWeight_cons (kv : DKey × Nat) (rest : List (DKey × Nat)) (k : Nat × Nat × Nat) :
    ymdWeight (kv :: rest) k =
      (if dropHour kv.1 = k then kv.2 else 0) + ymdWeight rest k := by
  simp only [ymdWeight, List.filter_cons]
  split_ifs with h h2 h3
  · simp only [List.map_cons, List.sum_cons]
  · simp only [decide_eq_true_eq] at h
    exact absurd h h2
  · simp only [decide_eq_true_eq] at h
    exact absurd h3 h
  · simp only [Nat.zero_add]

/-- The `maxStep` fold starting from `some b` yields an element bounding `b`
and every list element. -/
theorem foldl_maxStep_bounds :
    ∀ (l : List ((Nat × Nat × Nat) × Nat)) (b e : (Nat × Nat × Nat) × Nat),
      l.foldl maxStep (some b) = some e →
      b.2 ≤ e.2 ∧ ∀ x ∈ l, x.2 ≤ e.2 := by
  intro l
  induction l with
  | nil =>
    intro b e h
    simp only [List.foldl_nil] at h
    cases h
    exact ⟨le_refl _, by simp⟩
  | cons x xs ih =>
    intro b e h
    simp only [List.foldl_cons, maxStep] at h
    split_ifs at h with hbx
    · obtain ⟨hc, hall⟩ := ih x e h
      refine ⟨le_trans hbx hc, ?_⟩
      intro y hy
      rcases List.mem_cons.mp hy with rfl | hy'
      · exact hc
      · exact hall y hy'
    · obtain ⟨hc, hall⟩ := ih b e h
      refine ⟨hc, ?_⟩
      intro y hy
      rcases List.mem_cons.mp hy with rfl | hy'
      · exact le_trans (le_of_not_le hbx) hc
      · exact hall y hy'

/-- **C4 (amended)**: `get_probably_date` collapses the mapping by dropping
the hour and summing per `(year, month, day)` (first conjunct); an empty
mapping yields the error value, not an exception (second conjunct); the
returned date is the collapsed entry produced by the "maximal aggregated
count, **latest-inserted** entry wins ties" fold — not the chronologically
latest — subject to `datetime` constructibility (third conjunct); and that
entry's count is maximal (fourth conjunct). -/
theorem get_probably_date_matches_amended_spec :
    (∀ (dts : List (DKey × Nat)) (k : Nat × Nat × Nat),
        freqLookup (get_date_frequencies dts) k = ymdWeight dts k)
    ∧ get_probably_date [] = .err "Date dictionary is empty"
    ∧ (∀ (dts : List (DKey × Nat)) (e : (Nat × Nat × Nat) × Nat),
        lastMaxEntry (get_date_frequencies dts) = some e →
        get_probably_date dts =
          if isValidYMD e.1.1 e.1.2.1 e.1.2.2 then .date e.1.1 e.1.2.1 e.1.2.2
          else .err "Could not determine a probable date")
    ∧ (∀ (l : List ((Nat × Nat × Nat) × Nat)) (e : (Nat × Nat × Nat) × Nat),
        lastMaxEntry l = some e → ∀ x ∈ l, x.2 ≤ e.2) := by
  refine ⟨?_, rfl, ?_, ?_⟩
  · intro dts k
    suffices hgen : ∀ (ds : List (DKey × Nat)) (acc : List ((Nat × Nat × Nat) × Nat)),
        freqLookup (ds.foldl (fun acc kv => addFreq acc (dropHour kv.1) kv.2) acc) k =
          freqLookup acc k + ymdWeight ds k by
      have h := hgen dts []
      simpa [freqLookup, get_date_frequencies] using h
    intro ds
    induction ds with
    | nil =>
      intro acc
      simp [ymdWeight]
    | cons kv rest ih =>
      intro acc
      simp only [List.foldl_cons]
      rw [ih, freqLookup_addFreq, ymdWeight_cons]
      omega
  · intro dts e h
    simp only [get_probably_date, sortByFreq_getLast?, h]
  · intro l e h
    cases l with
    | nil => cases h
    | cons x xs =>
      simp only [lastMaxEntry, List.foldl_cons, maxStep] at h
      obtain ⟨hc, hall⟩ := foldl_maxStep_bounds xs x e h
      intro y hy
      rcases List.mem_cons.mp hy with rfl | hy'
      · exact hc
      · exact hall y hy'

/-- Witness for the amended C4: a mapping whose maximal entry (count 3 for
2023-01-02) is picked and returned as the probable date. -/
theorem get_probably_date_matches_amended_spec_witness :
    get_probably_date [((2023, 1, 1, 0), 1), ((2023, 1, 2, 0), 3)] = .date 2023 1 2 := by
  have h := get_probably_date_matches_amended_spec.2.2.1
    [((2023, 1, 1, 0), 1), ((2023, 1, 2, 0), 3)] ((2023, 1, 2), 3) (by rfl)
  rw [if_pos (by rfl)] at h
  exact h

/-- Witness for C5: the spec predicate at `remote 5, local 3, total 10`
transported through the equivalence. -/
theorem validate_ip_distribution_matches_spec_witness :
    validate_ip_distribution 5 3 10 = true :=
  (validate_ip_distribution_matches_spec.1 5 3 10).mpr
    ⟨by norm_num, by norm_num, Or.inl (by norm_num)⟩

/-- Witness for the amended C2: the equivalence at the concrete line whose
match survives only as the last pattern's (absent) result. -/
theorem scanPatterns_matches_amended_spec_witness :
    scanPatterns unknownIpLine patterns = specScanAmended unknownIpLine patterns :=
  scanPatterns_matches_amended_spec.2 unknownIpLine patterns

/-- Witness for C9: a concrete extractor family in which the date extractor
raises; all five attributes are still present. -/
theorem validate_path_name_attributes_independent_witness :
    (validate_path_name
        ⟨fun _ => Except.error "boom", fun _ => .ok (.str "scl"), fun _ => .ok (.flag true),
         fun _ => .ok (.str "application/gzip"), fun _ => .ok (.str ".gz")⟩
        "2024-02-20_caribbean.scielo.org.1.log.gz").map Prod.fst =
      ["date", "collection", "paperboy", "mimetype", "extension"] :=
  (validate_path_name_attributes_independent _ "2024-02-20_caribbean.scielo.org.1.log.gz").1

end LogValidator
